import Mathlib

/-!
Verification of the JSNI (JavaScript Native Interface) marshaling layer of the
grower repository, as implemented in grower-js/src/jsni.ts.

The embedding models the shared linear memory as a byte-addressed function
`Nat → Nat` (each cell read modulo 256, matching a `DataView` over a
`WebAssembly.Memory` buffer), JavaScript runtime values reachable through the
decoder/encoder as an inductive `JSValue`, the injected allocator capability
(`GrowerRsImports`) as functions from requested size to the returned 64-bit
fat pointer, and the per-invocation dispatch (`jsni_call`) as a pure state
transformer that also logs every allocator call.
-/

namespace Grower

/-- Shared linear memory: a byte store addressed by `Nat`. -/
abbrev Mem := Nat → Nat

/-- Read one byte (`DataView.getUint8`). -/
def rb (m : Mem) (a : Nat) : Nat := m a % 256

/-- Store one byte, truncating the value to 8 bits. -/
def wb (m : Mem) (a v : Nat) : Mem := fun x => if x = a then v % 256 else m x

/-- Little-endian read of `w` bytes starting at `a`. -/
def leRead (m : Mem) (a : Nat) : Nat → Nat
  | 0 => 0
  | w + 1 => rb m a + 256 * leRead m (a + 1) w

/-- Little-endian write of the low `w` bytes of `v` starting at `a`. -/
def leWrite (m : Mem) (a : Nat) : Nat → Nat → Mem
  | 0, _ => m
  | w + 1, v => leWrite (wb m a v) (a + 1) w (v / 256)

/-- Write a list of bytes at consecutive addresses (`Uint8Array.set`). -/
def writeBytesList (m : Mem) (a : Nat) : List Nat → Mem
  | [] => m
  | b :: rest => writeBytesList (wb m a b) (a + 1) rest

/-- Read `len` bytes starting at `p` (`Uint8Array.slice`). -/
def readBytes (m : Mem) (p len : Nat) : List Nat :=
  (List.range len).map (fun i => rb m (p + i))

/-- Two's-complement reinterpretation of an unsigned `bits`-wide value
(`DataView.getInt8/16/32` and `getBigInt64`). -/
def toSigned (bits n : Nat) : Int :=
  if n < 2 ^ (bits - 1) then (n : Int) else (n : Int) - 2 ^ bits

/-- The 64-bit two's-complement image of an integer, as written by
`DataView.setBigInt64`. -/
def intToTwos64 (k : Int) : Nat := (k % (2 ^ 64 : Int)).toNat

theorem rb_wb_self (m : Mem) (a v : Nat) : rb (wb m a v) a = v % 256 := by
  simp [rb, wb]

theorem rb_wb_ne (m : Mem) (a v x : Nat) (h : x ≠ a) : rb (wb m a v) x = rb m x := by
  simp [rb, wb, h]

theorem rb_leWrite_out (w : Nat) :
    ∀ (m : Mem) (a v x : Nat), x < a ∨ a + w ≤ x → rb (leWrite m a w v) x = rb m x := by
  induction w with
  | zero => intro m a v x _; rfl
  | succ w ih =>
    intro m a v x hx
    show rb (leWrite (wb m a v) (a + 1) w (v / 256)) x = rb m x
    rw [ih (wb m a v) (a + 1) (v / 256) x (by omega)]
    exact rb_wb_ne m a v x (by omega)

theorem rb_leWrite_first (m : Mem) (a w v : Nat) :
    rb (leWrite m a (w + 1) v) a = v % 256 := by
  show rb (leWrite (wb m a v) (a + 1) w (v / 256)) a = v % 256
  rw [rb_leWrite_out w (wb m a v) (a + 1) (v / 256) a (by omega)]
  exact rb_wb_self m a v

/-- Splitting a number modulo `256 * k` into its low byte and the rest. -/
theorem mod_split_digit (v k : Nat) (hk : 0 < k) :
    v % (256 * k) = v % 256 + 256 * (v / 256 % k) := by
  have h1 : 256 * (v / 256) + v % 256 = v := Nat.div_add_mod v 256
  have h2 : k * (v / 256 / k) + v / 256 % k = v / 256 := Nat.div_add_mod (v / 256) k
  have hlt : 256 * (v / 256 % k) + v % 256 < 256 * k := by
    have hb : v % 256 < 256 := Nat.mod_lt _ (by omega)
    have hc : v / 256 % k < k := Nat.mod_lt _ hk
    omega
  have hv : v = v / 256 / k * (256 * k) + (256 * (v / 256 % k) + v % 256) := by
    nlinarith [h1, h2]
  calc v % (256 * k)
      = (v / 256 / k * (256 * k) + (256 * (v / 256 % k) + v % 256)) % (256 * k) := by
        rw [← hv]
    _ = (256 * (v / 256 % k) + v % 256) % (256 * k) := by
        rw [Nat.add_comm, Nat.add_mul_mod_self_right]
    _ = 256 * (v / 256 % k) + v % 256 := Nat.mod_eq_of_lt hlt
    _ = v % 256 + 256 * (v / 256 % k) := by omega

theorem leRead_leWrite_self (w : Nat) :
    ∀ (m : Mem) (a v : Nat), leRead (leWrite m a w v) a w = v % 2 ^ (8 * w) := by
  induction w with
  | zero => intro m a v; simp [leRead, leWrite, Nat.mod_one]
  | succ w ih =>
    intro m a v
    show rb (leWrite m a (w + 1) v) a +
        256 * leRead (leWrite m a (w + 1) v) (a + 1) w = v % 2 ^ (8 * (w + 1))
    have h1 : rb (leWrite m a (w + 1) v) a = v % 256 := rb_leWrite_first m a w v
    have h2 : leRead (leWrite m a (w + 1) v) (a + 1) w = v / 256 % 2 ^ (8 * w) := by
      show leRead (leWrite (wb m a v) (a + 1) w (v / 256)) (a + 1) w = v / 256 % 2 ^ (8 * w)
      exact ih (wb m a v) (a + 1) (v / 256)
    have h3 : (2 : Nat) ^ (8 * (w + 1)) = 256 * 2 ^ (8 * w) := by
      rw [Nat.mul_succ, Nat.pow_add]
      ring
    rw [h1, h2, h3, mod_split_digit v (2 ^ (8 * w)) (Nat.pos_pow_of_pos _ (by omega))]

theorem leRead_congr_on (m m2 : Mem) (w : Nat) :
    ∀ a : Nat, (∀ x, a ≤ x → x < a + w → rb m x = rb m2 x) →
      leRead m a w = leRead m2 a w := by
  induction w with
  | zero => intro a _; rfl
  | succ w ih =>
    intro a h
    show rb m a + 256 * leRead m (a + 1) w = rb m2 a + 256 * leRead m2 (a + 1) w
    rw [h a (by omega) (by omega), ih (a + 1) (fun x hx1 hx2 => h x (by omega) (by omega))]

theorem leRead_leWrite_out (m : Mem) (a w v x w' : Nat)
    (h : x + w' ≤ a ∨ a + w ≤ x) :
    leRead (leWrite m a w v) x w' = leRead m x w' := by
  apply leRead_congr_on
  intro y hy1 hy2
  exact rb_leWrite_out w m a v y (by omega)

/-- UTF-8 bytes of a single code point (scalar value). -/
def utf8EncodeCp (cp : Nat) : List Nat :=
  if cp < 0x80 then [cp]
  else if cp < 0x800 then [0xC0 + cp / 64, 0x80 + cp % 64]
  else if cp < 0x10000 then [0xE0 + cp / 4096, 0x80 + cp / 64 % 64, 0x80 + cp % 64]
  else [0xF0 + cp / 262144, 0x80 + cp / 4096 % 64, 0x80 + cp / 64 % 64, 0x80 + cp % 64]

/-- `TextEncoder.encode`: UTF-8 encoding of a JavaScript string given as its
UTF-16 code units; well-formed surrogate pairs become one 4-byte sequence and
lone surrogates are replaced by U+FFFD. -/
def utf8EncodeJS : List Nat → List Nat
  | [] => []
  | u :: rest =>
    if 0xD800 ≤ u ∧ u ≤ 0xDBFF then
      match rest with
      | u2 :: rest2 =>
        if 0xDC00 ≤ u2 ∧ u2 ≤ 0xDFFF then
          utf8EncodeCp (0x10000 + (u - 0xD800) * 1024 + (u2 - 0xDC00)) ++ utf8EncodeJS rest2
        else utf8EncodeCp 0xFFFD ++ utf8EncodeJS (u2 :: rest2)
      | [] => utf8EncodeCp 0xFFFD
    else if 0xDC00 ≤ u ∧ u ≤ 0xDFFF then utf8EncodeCp 0xFFFD ++ utf8EncodeJS rest
    else utf8EncodeCp u ++ utf8EncodeJS rest

/-- `TextDecoder.decode`: UTF-8 decoding into UTF-16 code units, replacing
malformed sequences with U+FFFD; code points above U+FFFF become a surrogate
pair. -/
def utf8DecodeJS : List Nat → List Nat
  | [] => []
  | b :: rest =>
    if b ≤ 0x7F then b :: utf8DecodeJS rest
    else if 0xC2 ≤ b ∧ b ≤ 0xDF then
      match rest with
      | c :: rest2 =>
        if 0x80 ≤ c ∧ c ≤ 0xBF then (b % 32 * 64 + c % 64) :: utf8DecodeJS rest2
        else 0xFFFD :: utf8DecodeJS (c :: rest2)
      | [] => [0xFFFD]
    else if 0xE0 ≤ b ∧ b ≤ 0xEF then
      match rest with
      | c :: rest2 =>
        if (0x80 ≤ c ∧ c ≤ 0xBF) ∧ (b ≠ 0xE0 ∨ 0xA0 ≤ c) ∧ (b ≠ 0xED ∨ c ≤ 0x9F) then
          match rest2 with
          | d :: rest3 =>
            if 0x80 ≤ d ∧ d ≤ 0xBF then
              (b % 16 * 4096 + c % 64 * 64 + d % 64) :: utf8DecodeJS rest3
            else 0xFFFD :: utf8DecodeJS (d :: rest3)
          | [] => [0xFFFD]
        else 0xFFFD :: utf8DecodeJS (c :: rest2)
      | [] => [0xFFFD]
    else if 0xF0 ≤ b ∧ b ≤ 0xF4 then
      match rest with
      | c :: rest2 =>
        if (0x80 ≤ c ∧ c ≤ 0xBF) ∧ (b ≠ 0xF0 ∨ 0x90 ≤ c) ∧ (b ≠ 0xF4 ∨ c ≤ 0x8F) then
          match rest2 with
          | d :: rest3 =>
            if 0x80 ≤ d ∧ d ≤ 0xBF then
              match rest3 with
              | e :: rest4 =>
                if 0x80 ≤ e ∧ e ≤ 0xBF then
                  (0xD800 + ((b % 8 * 262144 + c % 64 * 4096 + d % 64 * 64 + e % 64)
                      - 0x10000) / 1024) ::
                  (0xDC00 + ((b % 8 * 262144 + c % 64 * 4096 + d % 64 * 64 + e % 64)
                      - 0x10000) % 1024) :: utf8DecodeJS rest4
                else 0xFFFD :: utf8DecodeJS (e :: rest4)
              | [] => [0xFFFD]
            else 0xFFFD :: utf8DecodeJS (d :: rest3)
          | [] => [0xFFFD]
        else 0xFFFD :: utf8DecodeJS (c :: rest2)
      | [] => [0xFFFD]
    else 0xFFFD :: utf8DecodeJS rest

/-- Whether an IEEE-754 binary64 bit pattern denotes a value for which
`Number.isInteger` returns true (a finite integral value). -/
def f64IsIntegral (bits : Nat) : Bool :=
  let e := bits / 2 ^ 52 % 2 ^ 11
  let man := bits % 2 ^ 52
  if e = 2047 then false
  else if e = 0 then man = 0
  else if 1075 ≤ e then true
  else if 1023 ≤ e then (2 ^ 52 + man) % 2 ^ (1075 - e) = 0
  else false

/-- The integer denoted by an integral binary64 bit pattern. -/
def f64IntegralValue (bits : Nat) : Int :=
  let s : Int := if bits / 2 ^ 63 % 2 = 1 then -1 else 1
  let e : Nat := bits / 2 ^ 52 % 2 ^ 11
  let man : Nat := bits % 2 ^ 52
  if e = 0 then 0
  else if 1075 ≤ e then s * (((2 ^ 52 + man) * 2 ^ (e - 1075) : Nat) : Int)
  else s * (((2 ^ 52 + man) / 2 ^ (1075 - e) : Nat) : Int)

/-- Exact widening of an IEEE-754 binary32 bit pattern to binary64, as
performed by `DataView.getFloat32` returning a JavaScript number (NaN is
canonicalised). -/
def f32BitsToF64Bits (b : Nat) : Nat :=
  let s := b / 2 ^ 31 % 2
  let e := b / 2 ^ 23 % 2 ^ 8
  let man := b % 2 ^ 23
  if e = 255 then
    if man = 0 then s * 2 ^ 63 + 2047 * 2 ^ 52
    else 2047 * 2 ^ 52 + 2 ^ 51
  else if e = 0 then
    if man = 0 then s * 2 ^ 63
    else s * 2 ^ 63 + (Nat.log2 man + 874) * 2 ^ 52 + (man * 2 ^ (52 - Nat.log2 man) - 2 ^ 52)
  else s * 2 ^ 63 + (e + 896) * 2 ^ 52 + man * 2 ^ 29

/-- A JavaScript number, canonically split by `Number.isInteger`: either a
finite integral value, or any other value carried by its binary64 bit
pattern. -/
inductive JSNumber where
  | int (n : Int)
  | f64 (bits : Nat)
  deriving DecidableEq

/-- The JavaScript number denoted by a binary64 bit pattern, in canonical
form. -/
def numFromF64Bits (bits : Nat) : JSNumber :=
  if f64IsIntegral bits then .int (f64IntegralValue bits) else .f64 bits

/-- A JavaScript runtime value reachable through the JSNI decoder or handed
back by a callback. Strings are lists of UTF-16 code units; `objOther` stands
for any object that is neither a `Uint8Array` nor `null`. -/
inductive JSValue where
  | num (x : JSNumber)
  | bigint (n : Int)
  | bool (b : Bool)
  | str (units : List Nat)
  | bytes (bs : List Nat)
  | null
  | objOther
  deriving DecidableEq

/-- `JSNIFunctionCallingSession.parseArgs`, one slot: read the tag byte at
offset +8 and dispatch on the 15 `JSNIKind` tags; any other tag byte falls
through the switch and contributes no argument. -/
def decodeSlot (m : Mem) (a : Nat) : Option JSValue :=
  let t := rb m (a + 8)
  if t = 0 then some (.num (.int (toSigned 8 (rb m a))))
  else if t = 1 then some (.num (.int (toSigned 16 (leRead m a 2))))
  else if t = 2 then some (.num (.int (toSigned 32 (leRead m a 4))))
  else if t = 3 then some (.bigint (toSigned 64 (leRead m a 8)))
  else if t = 4 then some (.num (.int (rb m a)))
  else if t = 5 then some (.num (.int (leRead m a 2)))
  else if t = 6 then some (.num (.int (leRead m a 4)))
  else if t = 7 then some (.bigint (leRead m a 8))
  else if t = 8 then some (.num (numFromF64Bits (f32BitsToF64Bits (leRead m a 4))))
  else if t = 9 then some (.num (numFromF64Bits (leRead m a 8)))
  else if t = 10 then some (.bool (rb m a != 0))
  else if t = 11 then some (.str [leRead m a 2])
  else if t = 12 then some (.str (utf8DecodeJS (readBytes m (leRead m a 4) (leRead m (a + 4) 4))))
  else if t = 13 then some (.bytes (readBytes m (leRead m a 4) (leRead m (a + 4) 4)))
  else if t = 14 then some .null
  else none

/-- `JSNIFunctionCallingSession.parseArgs`: decode the `count` slots of the
argument array at `argsPtr` in order, 16 bytes per slot, collecting the values
pushed by the switch. -/
def parseArgs (m : Mem) (argsPtr count : Nat) : List JSValue :=
  (List.range count).filterMap (fun i => decodeSlot m (argsPtr + i * 16))

/-- `readString`: bytes at `(p, len)` decoded as UTF-8 into a JavaScript
string. -/
def readString (m : Mem) (p len : Nat) : List Nat :=
  utf8DecodeJS (readBytes m p len)

/-- The session's `functionName`: a (pointer, length) pair of 32-bit
little-endian fields at `namePtr`, decoded as a UTF-8 string. -/
def sessionName (m : Mem) (namePtr : Nat) : List Nat :=
  readString m (leRead m namePtr 4) (leRead m (namePtr + 4) 4)

/-- The functions exported from grower-rs that the JSNI layer consumes
(types.ts `GrowerRsImports`): each maps a requested size to the 64-bit fat
pointer it returns (low 32 bits = offset, high 32 bits = length, per the wire
convention used throughout jsni.ts). -/
structure GrowerRsImports where
  alloc_jsni_value : Nat → Nat
  alloc : Nat → Nat

/-- State threaded through result encoding: the shared memory plus a log of
allocator calls, each recorded as (`true` for `alloc_jsni_value` / `false` for
`alloc`, requested size). -/
structure EncSt where
  mem : Mem
  calls : List (Bool × Nat)

/-- Failure modes of one invocation: the registry has no entry for the decoded
name (calling `undefined` throws), or `buildReturnValues` hits an object it
cannot classify and throws. -/
inductive JsniError where
  | unresolvedFunction
  | unsupportedObject
  deriving DecidableEq

/-- `setInt32(ptr + i * 16 + 8, kind, true)`: the 4-byte little-endian kind
tag written at slot offset +8. -/
def setTag (m : Mem) (a tag : Nat) : Mem := leWrite m (a + 8) 4 tag

/-- A JavaScript callback registered with the JSNI: takes the decoded argument
list and yields either no value (`void`) or a list of return values. -/
abbrev JSNIFunction := List JSValue → Option (List JSValue)

/-- The process-wide `window.__grower_jsni_functions` table. -/
abbrev Registry := List Nat → Option JSNIFunction

def emptyRegistry : Registry := fun _ => none

/-- `JavaScriptNativeInterface.register`: property assignment on the table,
inserting or overwriting unconditionally. -/
def register (r : Registry) (name : List Nat) (f : JSNIFunction) : Registry :=
  fun n => if n = name then some f else r n

/-- One iteration of the `buildReturnValues` loop body: encode value `v` into
the slot at address `a`, dispatching on `typeof`. A `boolean` value matches no
case of the switch and is silently skipped; an object that is neither a
`Uint8Array` nor `null` throws. -/
def encodeValue (A : GrowerRsImports) (a : Nat) (v : JSValue) (st : EncSt) :
    Except JsniError EncSt :=
  match v with
  | .num (.int n) => .ok ⟨setTag (leWrite st.mem a 8 (intToTwos64 n)) a 3, st.calls⟩
  | .num (.f64 bits) => .ok ⟨setTag (leWrite st.mem a 8 bits) a 9, st.calls⟩
  | .bigint k => .ok ⟨setTag (leWrite st.mem a 8 (intToTwos64 k)) a 3, st.calls⟩
  | .bool _ => .ok st
  | .str units =>
    let strBytes := utf8EncodeJS units
    let fat := A.alloc (strBytes.length + 1)
    let strPtr := fat % 2 ^ 32
    let m1 := writeBytesList st.mem strPtr strBytes
    let m2 := wb m1 (strPtr + strBytes.length) 0
    let m3 := leWrite m2 a 4 (fat / 2 ^ 32)
    .ok ⟨setTag m3 a 12, st.calls ++ [(false, strBytes.length + 1)]⟩
  | .bytes bs =>
    let fat := A.alloc bs.length
    let p := fat % 2 ^ 32
    let m1 := writeBytesList st.mem p bs
    let m2 := leWrite m1 a 4 (fat / 2 ^ 32)
    .ok ⟨setTag m2 a 13, st.calls ++ [(false, bs.length)]⟩
  | .null => .ok ⟨setTag st.mem a 14, st.calls⟩
  | .objOther => .error .unsupportedObject

/-- The `buildReturnValues` for-loop over the result values; on a throw the
state already written is kept (partial writes are not rolled back). -/
def encodeLoop (A : GrowerRsImports) (ptr : Nat) :
    Nat → List JSValue → EncSt → Except JsniError Unit × EncSt
  | _, [], st => (Except.ok (), st)
  | i, v :: rest, st =>
    match encodeValue A (ptr + i * 16) v st with
    | Except.ok st2 => encodeLoop A ptr (i + 1) rest st2
    | Except.error e => (Except.error e, st)

/-- `JSNIFunctionCallingSession.buildReturnValues`: allocate one 16-byte slot
per value via `alloc_jsni_value`, encode each value into its slot, and return
the high 32 bits of the slot array's fat pointer. -/
def buildReturnValues (A : GrowerRsImports) (vs : List JSValue) (st : EncSt) :
    Except JsniError Nat × EncSt :=
  let fat := A.alloc_jsni_value vs.length
  let st1 : EncSt := ⟨st.mem, st.calls ++ [(true, vs.length)]⟩
  match encodeLoop A (fat % 2 ^ 32) 0 vs st1 with
  | (Except.ok _, st2) => (Except.ok (fat / 2 ^ 32), st2)
  | (Except.error e, st2) => (Except.error e, st2)

/-- The `jsni_call` entry point installed by `JavaScriptNativeInterface.init`:
decode the name and arguments, resolve and invoke the callback, and either
return -1 (no return value) or encode the results and return the fat
pointer's high word. -/
def entryPoint (A : GrowerRsImports) (F : Registry) (st : EncSt)
    (namePtr argsPtr argsCount : Nat) : Except JsniError Int × EncSt :=
  match F (sessionName st.mem namePtr) with
  | none => (Except.error JsniError.unresolvedFunction, st)
  | some f =>
    match f (parseArgs st.mem argsPtr argsCount) with
    | none => (Except.ok (-1), st)
    | some vs =>
      match buildReturnValues A vs st with
      | (Except.ok hi, st2) => (Except.ok (Int.ofNat hi), st2)
      | (Except.error e, st2) => (Except.error e, st2)

/-- The registry-creation half of `JavaScriptNativeInterface.init`: the table
is created empty only when `window.__grower_jsni_functions` does not already
exist. -/
def initFunctions (w : Option Registry) : Option Registry :=
  match w with
  | none => some emptyRegistry
  | some r => some r

/-- A sequence of `register` calls applied in order. -/
def applyRegisters (r : Registry) : List (List Nat × JSNIFunction) → Registry
  | [] => r
  | (n, f) :: rest => applyRegisters (register r n f) rest

/-- Encode the single return value `v` with `buildReturnValues`, then decode
the slot it produced with the `parseArgs` slot decoder. -/
def roundTripOne (A : GrowerRsImports) (st : EncSt) (v : JSValue) : Option JSValue :=
  match buildReturnValues A [v] st with
  | (Except.ok _, st2) => decodeSlot st2.mem (A.alloc_jsni_value 1 % 2 ^ 32)
  | (Except.error _, _) => none

/-- All-zero shared memory. -/
def m0 : Mem := fun _ => 0

/-- Initial encoding state over all-zero memory with an empty allocator log. -/
def st0 : EncSt := ⟨m0, []⟩

/-- Degenerate allocator returning fat pointer 0 for every request. -/
def A0 : GrowerRsImports := ⟨fun _ => 0, fun _ => 0⟩

/-- Allocator fixture: the slot array lives at offset 1000 with length word 1;
byte allocations live at offset 2000 with the requested size as length
word. -/
def A1 : GrowerRsImports := ⟨fun _ => 2 ^ 32 + 1000, fun s => s * 2 ^ 32 + 2000⟩

/-- Allocator fixture whose slot-array fat pointer has high word 7 and offset
64. -/
def A3 : GrowerRsImports := ⟨fun _ => 7 * 2 ^ 32 + 64, fun _ => 0⟩

/-- A callback that returns an explicitly empty result list. -/
def fEmpty : JSNIFunction := fun _ => some []

/-- A callback that yields no return value. -/
def fNone : JSNIFunction := fun _ => none

/-- A registry holding, under the empty name, a callback that returns an
explicitly empty result list. -/
def R3 : Registry := register emptyRegistry [] fEmpty

/-- A registry holding, under the empty name, a callback that yields no
return value. -/
def Rnone : Registry := register emptyRegistry [] fNone

/-- Memory fixture for C5: slot 0 carries the undefined tag byte 99, slot 1
is an I32 slot holding 7. -/
def m5 : Mem := fun a =>
  if a = 8 then 99 else if a = 16 then 7 else if a = 24 then 2 else 0

/-- Memory fixture for C6, following the spec's worked example: slot 0 is an
I32 slot holding 5, slot 1 an I32 slot holding 7; at address 100 lies the
(pointer 120, length 3) pair of the function name, whose UTF-8 bytes at 120
spell "add" (97 100 100). -/
def m6 : Mem := fun a =>
  if a = 0 then 5 else if a = 8 then 2 else if a = 16 then 7 else if a = 24 then 2
  else if a = 100 then 120 else if a = 104 then 3
  else if a = 120 then 97 else if a = 121 then 100 else if a = 122 then 100 else 0

/-- The "add" callback of the spec's worked example: sums its two integral
number arguments. -/
def addFn : JSNIFunction := fun args =>
  match args with
  | [JSValue.num (JSNumber.int x), JSValue.num (JSNumber.int y)] =>
    some [JSValue.num (JSNumber.int (x + y))]
  | _ => none

/-- Registry with `addFn` registered under the name "add" (code units
97 100 100). -/
def R6 : Registry := register emptyRegistry [97, 100, 100] addFn

/-- Allocator fixture placing the result slot array at offset 500 with length
word 1. -/
def A6 : GrowerRsImports := ⟨fun _ => 2 ^ 32 + 500, fun _ => 0⟩

/-- Encoding state over the C6 memory fixture. -/
def st6 : EncSt := ⟨m6, []⟩

/-- Memory differing from `m0` only at addresses 5 and above. -/
def mAlt : Mem := fun a => if a < 5 then 0 else 9

theorem intToTwos64_lt (k : Int) : intToTwos64 k < 2 ^ 64 := by
  have h1 : 0 ≤ k % (2 ^ 64 : Int) := Int.emod_nonneg k (by norm_num)
  have h2 : k % (2 ^ 64 : Int) < 2 ^ 64 := Int.emod_lt_of_pos k (by norm_num)
  have h3 : ((2 : Int) ^ 64) = 18446744073709551616 := by norm_num
  simp only [intToTwos64]
  omega

theorem toSigned_intToTwos64 (k : Int) (h1 : -(2 ^ 63) ≤ k) (h2 : k < 2 ^ 63) :
    toSigned 64 (intToTwos64 k) = k := by
  have hp63 : ((2 : Int) ^ 63) = 9223372036854775808 := by norm_num
  have hp64 : ((2 : Int) ^ 64) = 18446744073709551616 := by norm_num
  have hn63 : ((2 : Nat) ^ (64 - 1)) = 9223372036854775808 := by norm_num
  have hr0 : 0 ≤ k % (2 ^ 64 : Int) := Int.emod_nonneg k (by norm_num)
  have hr1 : k % (2 ^ 64 : Int) < 2 ^ 64 := Int.emod_lt_of_pos k (by norm_num)
  have hk : k % (2 ^ 64 : Int) = k ∨ k % (2 ^ 64 : Int) = k + 2 ^ 64 := by
    rcases le_or_lt 0 k with hpos | hneg
    · left
      exact Int.emod_eq_of_lt hpos (by omega)
    · right
      have h5 : (k + 2 ^ 64 * 1) % (2 ^ 64 : Int) = k % (2 ^ 64 : Int) :=
        Int.add_mul_emod_self_left k (2 ^ 64) 1
      rw [Int.mul_one] at h5
      rw [← h5]
      exact Int.emod_eq_of_lt (by omega) (by omega)
  simp only [toSigned, intToTwos64, hn63]
  rcases hk with hk | hk <;> rw [hk] <;> split <;> omega

theorem decode_after_i64_write (m : Mem) (p v : Nat) (hv : v < 2 ^ 64) :
    decodeSlot (setTag (leWrite m p 8 v) p 3) p = some (.bigint (toSigned 64 v)) := by
  have htag : rb (setTag (leWrite m p 8 v) p 3) (p + 8) = 3 := by
    simp only [setTag]
    rw [show (4 : Nat) = 3 + 1 from rfl, rb_leWrite_first]
  have hpay : leRead (setTag (leWrite m p 8 v) p 3) p 8 = v := by
    simp only [setTag]
    rw [leRead_leWrite_out _ _ _ _ _ _ (Or.inl (by omega)),
      leRead_leWrite_self, Nat.mod_eq_of_lt (by simpa using hv)]
  simp only [decodeSlot, htag, hpay]
  norm_num

theorem decode_after_f64_write (m : Mem) (p v : Nat) (hv : v < 2 ^ 64) :
    decodeSlot (setTag (leWrite m p 8 v) p 9) p = some (.num (numFromF64Bits v)) := by
  have htag : rb (setTag (leWrite m p 8 v) p 9) (p + 8) = 9 := by
    simp only [setTag]
    rw [show (4 : Nat) = 3 + 1 from rfl, rb_leWrite_first]
  have hpay : leRead (setTag (leWrite m p 8 v) p 9) p 8 = v := by
    simp only [setTag]
    rw [leRead_leWrite_out _ _ _ _ _ _ (Or.inl (by omega)),
      leRead_leWrite_self, Nat.mod_eq_of_lt (by simpa using hv)]
  simp only [decodeSlot, htag, hpay]
  norm_num

theorem decodeSlot_none_of_tag_ge (m : Mem) (a : Nat) (h : 15 ≤ rb m (a + 8)) :
    decodeSlot m a = none := by
  simp only [decodeSlot]
  repeat rw [if_neg (by omega)]

theorem decodeSlot_isSome_of_tag_lt (m : Mem) (a : Nat) (h : rb m (a + 8) < 15) :
    (decodeSlot m a).isSome = true := by
  simp only [decodeSlot]
  set t := rb m (a + 8) with ht
  interval_cases t <;> simp

theorem filterMap_eq_of_apply_none {α β : Type} [DecidableEq α]
    (g : α → Option β) (j : α) (hj : g j = none) :
    ∀ l : List α, l.filterMap g = (l.filter (fun i => i != j)).filterMap g := by
  intro l
  induction l with
  | nil => rfl
  | cons a l ih =>
    by_cases ha : a = j
    · subst ha
      simp only [List.filter_cons, bne_self_eq_false, Bool.false_eq_true, if_false,
        List.filterMap_cons, hj]
      exact ih
    · have hb : (a != j) = true := by simp [ha]
      simp only [List.filter_cons, hb, if_true, List.filterMap_cons]
      cases hga : g a <;> simp [ih]

theorem parseArgs_eq_map_of_all_some (m : Mem) (base : Nat) :
    ∀ (count : Nat) (v : Nat → JSValue),
      (∀ i, i < count → decodeSlot m (base + i * 16) = some (v i)) →
      parseArgs m base count = (List.range count).map v := by
  intro count
  induction count with
  | zero => intro v _; rfl
  | succ n ih =>
    intro v h
    have hn : decodeSlot m (base + n * 16) = some (v n) := h n (by omega)
    have hpre : parseArgs m base n = (List.range n).map v :=
      ih v (fun i hi => h i (by omega))
    simp only [parseArgs, List.range_succ, List.filterMap_append, List.map_append]
    simp only [parseArgs] at hpre
    rw [hpre]
    simp [hn]

theorem encodeValue_ok_of_ne (A : GrowerRsImports) (a : Nat) (v : JSValue) (st : EncSt)
    (h : v ≠ JSValue.objOther) : ∃ st2, encodeValue A a v st = Except.ok st2 := by
  cases v with
  | num x => cases x <;> exact ⟨_, rfl⟩
  | bigint k => exact ⟨_, rfl⟩
  | bool b => exact ⟨_, rfl⟩
  | str u => exact ⟨_, rfl⟩
  | bytes bs => exact ⟨_, rfl⟩
  | null => exact ⟨_, rfl⟩
  | objOther => exact absurd rfl h

theorem encodeLoop_mem_error (A : GrowerRsImports) (ptr : Nat) :
    ∀ (vs : List JSValue) (i : Nat) (st : EncSt), JSValue.objOther ∈ vs →
      (encodeLoop A ptr i vs st).1 = Except.error JsniError.unsupportedObject := by
  intro vs
  induction vs with
  | nil => intro i st h; simp at h
  | cons v rest ih =>
    intro i st h
    by_cases hv : v = JSValue.objOther
    · subst hv
      rfl
    · have hrest : JSValue.objOther ∈ rest := by
        rcases List.mem_cons.mp h with h1 | h2
        · exact absurd h1.symm hv
        · exact h2
      obtain ⟨st2, hst2⟩ := encodeValue_ok_of_ne A (ptr + i * 16) v st hv
      show (match encodeValue A (ptr + i * 16) v st with
        | Except.ok st2 => encodeLoop A ptr (i + 1) rest st2
        | Except.error e => (Except.error e, st)).1 = Except.error JsniError.unsupportedObject
      rw [hst2]
      exact ih (i + 1) st2 hrest

/-- C1: A callback returning the string with code units 111 107 ("ok") is
UTF-8-encoded; 3 = 2 + 1 bytes are requested from the injected byte allocator
`alloc`; the encoded bytes 6F 6B are copied to the allocated offset (2000)
followed by a single zero terminator; and the slot tag is set to String (12).
However, the value written into the slot's 4-byte payload field is the HIGH
32 bits of the allocator's fat pointer — the allocation length word 3 — and
not the offset 2000 of the newly allocated buffer, contradicting both the
claim and the decoder in the same file, which reads the payload field at +0
as the buffer offset. -/
theorem C1_string_result_encoding :
    (buildReturnValues A1 [JSValue.str [111, 107]] st0).1 = Except.ok 1 ∧
    (buildReturnValues A1 [JSValue.str [111, 107]] st0).2.calls = [(true, 1), (false, 3)] ∧
    rb (buildReturnValues A1 [JSValue.str [111, 107]] st0).2.mem 2000 = 0x6F ∧
    rb (buildReturnValues A1 [JSValue.str [111, 107]] st0).2.mem 2001 = 0x6B ∧
    rb (buildReturnValues A1 [JSValue.str [111, 107]] st0).2.mem 2002 = 0 ∧
    rb (buildReturnValues A1 [JSValue.str [111, 107]] st0).2.mem 1008 = 12 ∧
    leRead (buildReturnValues A1 [JSValue.str [111, 107]] st0).2.mem 1000 4 = 3 ∧
    leRead (buildReturnValues A1 [JSValue.str [111, 107]] st0).2.mem 1000 4 ≠ 2000 :=
  ⟨rfl, rfl, by decide, by decide, by decide, by decide, by decide, by decide⟩

/-- C2 counterexample: for the Bool kind and its boundary value `true`, the
result encoder's `typeof` switch has no `boolean` case, so nothing is written
to the slot; over all-zero memory the produced slot decodes as an I8 zero,
not as `true`. -/
theorem C2_counterexample_bool :
    roundTripOne A0 st0 (JSValue.bool true) = some (JSValue.num (JSNumber.int 0)) ∧
    roundTripOne A0 st0 (JSValue.bool true) ≠ some (JSValue.bool true) :=
  ⟨by decide, by decide⟩

/-- C2 (amended): encode-then-decode over the kinds the result encoder can
actually produce: a bigint in signed 64-bit range round-trips exactly; an
integral number in signed 64-bit range comes back as the bigint with the same
integer value (the encoder writes every integral value with the I64 tag); a
number with a non-integral binary64 bit pattern round-trips exactly through
the F64 tag. Bool and Char kind values do not round-trip: booleans produce no
slot write at all, and char values are strings in JavaScript and are encoded
with the String tag. -/
theorem C2_roundtrip_amended :
    (∀ (A : GrowerRsImports) (st : EncSt) (k : Int),
      -(2 ^ 63) ≤ k → k < 2 ^ 63 →
      roundTripOne A st (JSValue.bigint k) = some (JSValue.bigint k)) ∧
    (∀ (A : GrowerRsImports) (st : EncSt) (n : Int),
      -(2 ^ 63) ≤ n → n < 2 ^ 63 →
      roundTripOne A st (JSValue.num (JSNumber.int n)) = some (JSValue.bigint n)) ∧
    (∀ (A : GrowerRsImports) (st : EncSt) (bits : Nat),
      bits < 2 ^ 64 → f64IsIntegral bits = false →
      roundTripOne A st (JSValue.num (JSNumber.f64 bits)) =
        some (JSValue.num (JSNumber.f64 bits))) := by
  refine ⟨?_, ?_, ?_⟩
  · intro A st k h1 h2
    have hr : roundTripOne A st (JSValue.bigint k) =
        decodeSlot (setTag (leWrite st.mem (A.alloc_jsni_value 1 % 2 ^ 32 + 0 * 16) 8
          (intToTwos64 k)) (A.alloc_jsni_value 1 % 2 ^ 32 + 0 * 16) 3)
          (A.alloc_jsni_value 1 % 2 ^ 32) := rfl
    rw [hr]
    simp only [Nat.zero_mul, Nat.add_zero]
    rw [decode_after_i64_write _ _ _ (intToTwos64_lt k), toSigned_intToTwos64 k h1 h2]
  · intro A st n h1 h2
    have hr : roundTripOne A st (JSValue.num (JSNumber.int n)) =
        decodeSlot (setTag (leWrite st.mem (A.alloc_jsni_value 1 % 2 ^ 32 + 0 * 16) 8
          (intToTwos64 n)) (A.alloc_jsni_value 1 % 2 ^ 32 + 0 * 16) 3)
          (A.alloc_jsni_value 1 % 2 ^ 32) := rfl
    rw [hr]
    simp only [Nat.zero_mul, Nat.add_zero]
    rw [decode_after_i64_write _ _ _ (intToTwos64_lt n), toSigned_intToTwos64 n h1 h2]
  · intro A st bits hlt hni
    have hr : roundTripOne A st (JSValue.num (JSNumber.f64 bits)) =
        decodeSlot (setTag (leWrite st.mem (A.alloc_jsni_value 1 % 2 ^ 32 + 0 * 16) 8
          bits) (A.alloc_jsni_value 1 % 2 ^ 32 + 0 * 16) 9)
          (A.alloc_jsni_value 1 % 2 ^ 32) := rfl
    rw [hr]
    simp only [Nat.zero_mul, Nat.add_zero]
    rw [decode_after_f64_write _ _ _ hlt]
    simp [numFromF64Bits, hni]

/-- C2 witness: the amended round-trip evaluated at the boundary value -1 for
bigints, 0 for integral numbers, and the bit pattern of 0.5 for non-integral
numbers. -/
theorem C2_roundtrip_witness :
    (-(2 ^ 63) : Int) ≤ -1 ∧ (-1 : Int) < 2 ^ 63 ∧
    roundTripOne A0 st0 (JSValue.bigint (-1)) = some (JSValue.bigint (-1)) ∧
    roundTripOne A0 st0 (JSValue.num (JSNumber.int 0)) = some (JSValue.bigint 0) ∧
    (1022 * 2 ^ 52 : Nat) < 2 ^ 64 ∧ f64IsIntegral (1022 * 2 ^ 52) = false ∧
    roundTripOne A0 st0 (JSValue.num (JSNumber.f64 (1022 * 2 ^ 52))) =
      some (JSValue.num (JSNumber.f64 (1022 * 2 ^ 52))) :=
  ⟨by decide, by decide,
   C2_roundtrip_amended.1 A0 st0 (-1) (by decide) (by decide),
   C2_roundtrip_amended.2.1 A0 st0 0 (by decide) (by decide),
   by decide, by decide,
   C2_roundtrip_amended.2.2 A0 st0 (1022 * 2 ^ 52) (by decide) (by decide)⟩

/-- C3 counterexample: a resolved callback returning an explicitly empty
result list does not yield the sentinel -1: an empty array is truthy, so
`buildReturnValues` runs, `alloc_jsni_value` is called with count 0, and the
entry point returns the high word (here 7) of the allocator's fat pointer. -/
theorem C3_counterexample_empty_list :
    (entryPoint A3 R3 st0 0 0 0).1 = Except.ok 7 ∧
    (7 : Int) ≠ -1 ∧
    (entryPoint A3 R3 st0 0 0 0).2.calls = [(true, 0)] ∧
    (entryPoint A3 R3 st0 0 0 0).2.calls ≠ [] :=
  ⟨rfl, by decide, rfl, by decide⟩

/-- C3 (amended): the entry point returns the sentinel -1 exactly when the
resolved callback yields no return value (undefined), and then no allocator
call is made and memory is untouched; a callback returning an explicitly
empty result list instead triggers result encoding: `alloc_jsni_value` is
called with count 0 and the high word of its fat pointer is returned. -/
theorem C3_sentinel_amended :
    (∀ (A : GrowerRsImports) (F : Registry) (st : EncSt) (p a c : Nat) (f : JSNIFunction),
      F (sessionName st.mem p) = some f →
      f (parseArgs st.mem a c) = none →
      entryPoint A F st p a c = (Except.ok (-1), st)) ∧
    (∀ (A : GrowerRsImports) (F : Registry) (st : EncSt) (p a c : Nat) (f : JSNIFunction),
      F (sessionName st.mem p) = some f →
      f (parseArgs st.mem a c) = some [] →
      entryPoint A F st p a c =
        (Except.ok (Int.ofNat (A.alloc_jsni_value 0 / 2 ^ 32)),
          ⟨st.mem, st.calls ++ [(true, 0)]⟩)) := by
  constructor
  · intro A F st p a c f h hf
    simp only [entryPoint, h, hf]
  · intro A F st p a c f h hf
    simp only [entryPoint, h, hf, buildReturnValues, List.length_nil, encodeLoop]

/-- C3 witness: the amended statement at concrete registries: a callback
yielding no value returns -1 with untouched state; a callback yielding the
empty list returns the length word 7 and logs one `alloc_jsni_value` call of
size 0. -/
theorem C3_sentinel_witness :
    entryPoint A0 Rnone st0 0 0 0 = (Except.ok (-1), st0) ∧
    entryPoint A3 R3 st0 0 0 0 =
      (Except.ok (Int.ofNat (A3.alloc_jsni_value 0 / 2 ^ 32)),
        ⟨st0.mem, st0.calls ++ [(true, 0)]⟩) :=
  ⟨C3_sentinel_amended.1 A0 Rnone st0 0 0 0 fNone rfl rfl,
   C3_sentinel_amended.2 A3 R3 st0 0 0 0 fEmpty rfl rfl⟩

/-- C4 counterexample: a callback return list containing the boolean `true`
(not classifiable by the `typeof` switch) does NOT fail the encode: the
switch simply has no `boolean` case, the value is silently skipped, and
`buildReturnValues` completes returning the fat pointer's high word 7. -/
theorem C4_counterexample_bool_no_error :
    (buildReturnValues A3 [JSValue.bool true] st0).1 = Except.ok 7 ∧
    (buildReturnValues A3 [JSValue.bool true] st0).1 ≠
      Except.error JsniError.unsupportedObject :=
  ⟨rfl, by intro h; rw [show (buildReturnValues A3 [JSValue.bool true] st0).1
    = Except.ok 7 from rfl] at h; cases h⟩

/-- C4 (amended): only object-typed values that are neither byte sequences
nor null fail the encode with an error (the thrown Unsupported-object error
propagates out of the whole encode); a boolean return value is silently
skipped — its `encodeValue` step succeeds without touching memory or the
allocator log — rather than failing the encode. -/
theorem C4_unencodable_amended :
    (∀ (A : GrowerRsImports) (st : EncSt) (b : Bool) (a : Nat),
      encodeValue A a (JSValue.bool b) st = Except.ok st) ∧
    (∀ (A : GrowerRsImports) (st : EncSt) (a : Nat),
      encodeValue A a JSValue.objOther st = Except.error JsniError.unsupportedObject) ∧
    (∀ (A : GrowerRsImports) (st : EncSt) (vs : List JSValue),
      JSValue.objOther ∈ vs →
      (buildReturnValues A vs st).1 = Except.error JsniError.unsupportedObject) := by
  refine ⟨fun A st b a => rfl, fun A st a => rfl, ?_⟩
  intro A st vs h
  have hloop := encodeLoop_mem_error A (A.alloc_jsni_value vs.length % 2 ^ 32) vs 0
    ⟨st.mem, st.calls ++ [(true, vs.length)]⟩ h
  simp only [buildReturnValues]
  split
  · rename_i heq
    rw [heq] at hloop
    simp at hloop
  · rename_i e st2 heq
    rw [heq] at hloop
    simpa using hloop

/-- C4 witness: the amended statement at concrete inputs — a skipped boolean
and a one-element list containing an unsupported object that fails the whole
encode. -/
theorem C4_unencodable_witness :
    encodeValue A0 0 (JSValue.bool true) st0 = Except.ok st0 ∧
    encodeValue A0 0 JSValue.objOther st0 = Except.error JsniError.unsupportedObject ∧
    JSValue.objOther ∈ [JSValue.objOther] ∧
    (buildReturnValues A0 [JSValue.objOther] st0).1 =
      Except.error JsniError.unsupportedObject :=
  ⟨C4_unencodable_amended.1 A0 st0 true 0,
   C4_unencodable_amended.2.1 A0 st0 0,
   by decide,
   C4_unencodable_amended.2.2 A0 st0 [JSValue.objOther] (by decide)⟩

/-- C5: when a slot's tag byte is outside the 15 defined kind tags, the
decoder silently drops that argument — the result equals the decode of the
slot array with that index filtered out, so decoding of the remaining slots
continues and no failure occurs — while every slot with a defined tag (0–14)
does contribute a value. -/
theorem C5_unknown_tag_silently_dropped :
    (∀ (m : Mem) (base count j : Nat), j < count →
      15 ≤ rb m (base + j * 16 + 8) →
      parseArgs m base count =
        ((List.range count).filter (fun i => i != j)).filterMap
          (fun i => decodeSlot m (base + i * 16))) ∧
    (∀ (m : Mem) (a : Nat), rb m (a + 8) < 15 → (decodeSlot m a).isSome = true) := by
  constructor
  · intro m base count j hj htag
    have hnone : decodeSlot m (base + j * 16) = none :=
      decodeSlot_none_of_tag_ge m (base + j * 16) htag
    simp only [parseArgs]
    exact filterMap_eq_of_apply_none (fun i => decodeSlot m (base + i * 16)) j hnone
      (List.range count)
  · intro m a h
    exact decodeSlot_isSome_of_tag_lt m a h

/-- C5 witness: a 2-slot array whose first slot has tag byte 99: the decode
drops the first argument and yields only the 7 of the second (I32) slot. -/
theorem C5_unknown_tag_witness :
    0 < 2 ∧ 15 ≤ rb m5 (0 + 0 * 16 + 8) ∧
    parseArgs m5 0 2 =
      ((List.range 2).filter (fun i => i != 0)).filterMap
        (fun i => decodeSlot m5 (0 + i * 16)) ∧
    parseArgs m5 0 2 = [JSValue.num (JSNumber.int 7)] ∧
    rb m5 (16 + 8) < 15 ∧ (decodeSlot m5 16).isSome = true :=
  ⟨by decide, by decide,
   C5_unknown_tag_silently_dropped.1 m5 0 2 0 (by decide) (by decide),
   by decide, by decide,
   C5_unknown_tag_silently_dropped.2 m5 16 (by decide)⟩

/-- C6: when all tag bytes of an N-slot array are among the 15 defined kind
tags, the decoder returns exactly N values, the i-th decoded from the i-th
slot (tag byte at slot offset +8, 16-byte stride, little-endian payloads,
per `decodeSlot`); and the entry point passes exactly `parseArgs`'s result as
the argument list to the resolved callback. -/
theorem C6_positional_decode :
    (∀ (m : Mem) (base count : Nat),
      (∀ i, i < count → rb m (base + i * 16 + 8) < 15) →
      (parseArgs m base count).length = count ∧
      ∀ i, i < count → (parseArgs m base count)[i]? = decodeSlot m (base + i * 16)) ∧
    (∀ (A : GrowerRsImports) (F : Registry) (st : EncSt) (p a c : Nat)
      (f : JSNIFunction),
      F (sessionName st.mem p) = some f →
      entryPoint A F st p a c =
        match f (parseArgs st.mem a c) with
        | none => (Except.ok (-1), st)
        | some vs =>
          match buildReturnValues A vs st with
          | (Except.ok hi, st2) => (Except.ok (Int.ofNat hi), st2)
          | (Except.error e, st2) => (Except.error e, st2)) := by
  constructor
  · intro m base count h
    have hv : ∀ i, i < count → decodeSlot m (base + i * 16) =
        some ((decodeSlot m (base + i * 16)).getD JSValue.null) := by
      intro i hi
      have hs := decodeSlot_isSome_of_tag_lt m (base + i * 16) (h i hi)
      cases hd : decodeSlot m (base + i * 16) with
      | none => rw [hd] at hs; simp at hs
      | some v => simp
    have hmap := parseArgs_eq_map_of_all_some m base count
      (fun i => (decodeSlot m (base + i * 16)).getD JSValue.null) hv
    constructor
    · rw [hmap]; simp
    · intro i hi
      rw [hmap, List.getElem?_map, List.getElem?_range hi]
      simp only [Option.map_some']
      exact (hv i hi).symm
  · intro A F st p a c f h
    simp only [entryPoint, h]

/-- C6 witness: the spec's worked example — slots `[{5, I32}, {7, I32}]`
decode positionally to `[5, 7]`, the callback registered under "add" is
invoked with exactly that list, and its return value 12 is encoded into a
1-slot array tagged I64 (payload 12, tag byte 3). -/
theorem C6_positional_witness :
    (∀ i, i < 2 → rb m6 (0 + i * 16 + 8) < 15) ∧
    (parseArgs m6 0 2).length = 2 ∧
    (parseArgs m6 0 2)[0]? = decodeSlot m6 (0 + 0 * 16) ∧
    (parseArgs m6 0 2)[1]? = decodeSlot m6 (0 + 1 * 16) ∧
    parseArgs m6 0 2 = [JSValue.num (JSNumber.int 5), JSValue.num (JSNumber.int 7)] ∧
    R6 (sessionName m6 100) = some addFn ∧
    (entryPoint A6 R6 st6 100 0 2).1 = Except.ok 1 ∧
    leRead (entryPoint A6 R6 st6 100 0 2).2.mem 500 8 = 12 ∧
    rb (entryPoint A6 R6 st6 100 0 2).2.mem 508 = 3 :=
  ⟨by decide,
   (C6_positional_decode.1 m6 0 2 (by decide)).1,
   (C6_positional_decode.1 m6 0 2 (by decide)).2 0 (by decide),
   (C6_positional_decode.1 m6 0 2 (by decide)).2 1 (by decide),
   by decide, rfl,
   by rw [C6_positional_decode.2 A6 R6 st6 100 0 2 addFn rfl]; rfl,
   by decide, by decide⟩

/-- C7: an invocation whose decoded function name has no registry entry fails
as a hard error — calling the absent property throws, so the entry point
yields the Unresolved-function error, not a sentinel return value — and the
invocation performs no write to shared memory and no allocator call: the
state comes back unchanged. -/
theorem C7_unresolved_hard_error :
    ∀ (A : GrowerRsImports) (F : Registry) (st : EncSt) (p a c : Nat),
      F (sessionName st.mem p) = none →
      entryPoint A F st p a c = (Except.error JsniError.unresolvedFunction, st) := by
  intro A F st p a c h
  simp only [entryPoint, h]

/-- C7 witness: dispatching any name against the empty registry errors with
the state untouched. -/
theorem C7_unresolved_witness :
    entryPoint A0 emptyRegistry st0 0 0 0 =
      (Except.error JsniError.unresolvedFunction, st0) :=
  C7_unresolved_hard_error A0 emptyRegistry st0 0 0 0 rfl

/-- C8: registering f then g under one name always succeeds (registration is
total property assignment, no duplicate-name error), the registry afterwards
resolves that name to g — last write wins — and every subsequent dispatch of
that name runs exactly g on the decoded arguments, never f. -/
theorem C8_last_registration_wins :
    ∀ (R : Registry) (name : List Nat) (f g : JSNIFunction),
      register (register R name f) name g name = some g ∧
      ∀ (A : GrowerRsImports) (st : EncSt) (p a c : Nat),
        sessionName st.mem p = name →
        entryPoint A (register (register R name f) name g) st p a c =
          match g (parseArgs st.mem a c) with
          | none => (Except.ok (-1), st)
          | some vs =>
            match buildReturnValues A vs st with
            | (Except.ok hi, st2) => (Except.ok (Int.ofNat hi), st2)
            | (Except.error e, st2) => (Except.error e, st2) := by
  intro R name f g
  constructor
  · simp [register]
  · intro A st p a c hname
    simp only [entryPoint, hname, register, if_pos]

/-- C8 witness: after registering `fEmpty` then `fNone` under the empty name,
resolution yields `fNone`, and dispatch runs `fNone` (returning the -1
sentinel), not `fEmpty`. -/
theorem C8_last_registration_witness :
    register (register emptyRegistry [] fEmpty) [] fNone [] = some fNone ∧
    entryPoint A0 (register (register emptyRegistry [] fEmpty) [] fNone) st0 0 0 0 =
      (Except.ok (-1), st0) :=
  ⟨(C8_last_registration_wins emptyRegistry [] fEmpty fNone).1,
   (C8_last_registration_wins emptyRegistry [] fEmpty fNone).2 A0 st0 0 0 0 rfl⟩

/-- C9: decoding an argument array with element count 0 yields the empty
argument list for every memory and base pointer, and the result does not
depend on any memory content at or beyond the base pointer (the loop body
never runs, so no access is made). -/
theorem C9_zero_count_empty :
    (∀ (m : Mem) (base : Nat), parseArgs m base 0 = []) ∧
    (∀ (m m2 : Mem) (base : Nat),
      (∀ x, x < base → m x = m2 x) →
      parseArgs m base 0 = parseArgs m2 base 0) :=
  ⟨fun _ _ => rfl, fun _ _ _ _ => rfl⟩

/-- C9 witness: two memories that agree below base 5 and differ from 5
upward decode a 0-count array to the same empty list. -/
theorem C9_zero_count_witness :
    (∀ x, x < 5 → m0 x = mAlt x) ∧
    parseArgs m0 5 0 = [] ∧
    parseArgs m0 5 0 = parseArgs mAlt 5 0 :=
  ⟨by decide, C9_zero_count_empty.1 m0 5, C9_zero_count_empty.2 m0 mAlt 5 (by decide)⟩

/-- C10: `init` creates the process-wide function table only when it does not
already exist: an absent table becomes the empty table, an existing table is
left exactly as it is, so every mapping installed by any earlier sequence of
`register` calls is still present and resolvable after a later `init`. -/
theorem C10_init_preserves_registry :
    initFunctions none = some emptyRegistry ∧
    (∀ r : Registry, initFunctions (some r) = some r) ∧
    (∀ (r : Registry) (l : List (List Nat × JSNIFunction)) (name : List Nat),
      (initFunctions (some (applyRegisters r l))).getD emptyRegistry name =
        applyRegisters r l name) :=
  ⟨rfl, fun _ => rfl, fun _ _ _ => rfl⟩

end Grower
